import Mathlib

/-!
Shallow embedding of the histogram library (vetlewi/histogram).

The repository ships two headers under `src/include/histogram/`:
`Histogram2D.h` and `Histogram3D.h`.  Both include `Histograms.h` (which
declares `Axis` and `Named`) and both rely on out-of-line bodies in `.cpp`
files; neither `Histograms.h` nor the `.cpp` files are part of the sources
available here.  Accordingly:

* functions whose bodies appear in the headers (`Fill`, the inline
  `FillDirect(const buf_t&)`, `GetEntries`) are translated from that source;
* functions only declared in the headers (`Add`, `GetBinContent`,
  `SetBinContent`, `Reset`, `FlushBuffer`, the constructor) and the whole
  `Axis` class are modelled from the specification, each marked
  `Modelled from the spec:` in its doc comment.

Modelling conventions:

* `Axis::bin_t` (IEEE-754 double coordinates) is modelled as `Val`:
  either NaN or an exact real value (a rational).
* bin counters (`data_t = size_t`) and the `entries` counter (`size_t`)
  are modelled as `ℕ`.
* `Axis::index_t` (a signed `int`) is modelled as `ℤ` where signedness is
  observable (`GetBinContent` / `SetBinContent` argument positions) and as
  `ℕ` where the value is always a valid bin index (the result of `FindBin`).
* the bin tensor is one flat row-major list of counters.  The source's two
  physical layouts (contiguous `data[]` vs row pointers `rows[..][..]`,
  chosen by the compile-time switch `USE_ROWS`) address the same logical
  slot, so they share this one representation; in `Histogram3D::FillDirect`
  the switch additionally decides whether `entries` is incremented (the
  increment sits inside the `USE_ROWS` branch, `Histogram3D.h` lines
  141-147), so the 3D fill takes the switch as an explicit `Bool`.
-/

namespace Histo

/-- A coordinate value (`Axis::bin_t`, an IEEE-754 double): either NaN or an
exact real number, modelled as a rational. -/
inductive Val where
  | nan : Val
  | real : ℚ → Val
deriving DecidableEq

/-- One coordinate axis (`class Axis` in `Histograms.h`): number of regular
bins and the two edges.  The title is an opaque label and is omitted. -/
structure Axis where
  channels : ℕ
  left : ℚ
  right : ℚ
deriving DecidableEq

/-- Derived bin width: `(right - left) / channels`. -/
def Axis.width (a : Axis) : ℚ := (a.right - a.left) / (a.channels : ℚ)

/-- Number of regular bins (`Axis::GetBinCount`). -/
def Axis.GetBinCount (a : Axis) : ℕ := a.channels

/-- Total number of bins including underflow and overflow
(`Axis::GetBinCountAll`), `channels + 2`. -/
def Axis.GetBinCountAll (a : Axis) : ℕ := a.channels + 2

/-- Modelled from the spec: `Axis::FindBin` (its body lives in
`Histograms.h`, which is not among the sources).  Per the spec: returns 0
if `v < left`; returns `channels + 1` if `v ≥ right` or `v` is NaN;
otherwise returns `1 + floor((v - left) / width)`. -/
def Axis.FindBin (a : Axis) (v : Val) : ℕ :=
  match v with
  | .nan => a.channels + 1
  | .real q =>
    if q < a.left then 0
    else if a.right ≤ q then a.channels + 1
    else 1 + (⌊(q - a.left) / a.width⌋).toNat

/-- Constructor precondition on an axis (`channels ≥ 1`, `left < right`);
violations fail fast with `InvalidAxis` at histogram construction. -/
def Axis.Valid (a : Axis) : Prop := 1 ≤ a.channels ∧ a.left < a.right

instance (a : Axis) : Decidable a.Valid := by unfold Axis.Valid; infer_instance

/-- Error kinds reported by the library.  `Add` is the only operation that
can fail after construction. -/
inductive HistErr where
  | BinningMismatch : HistErr
deriving DecidableEq

/-- Modelled from the spec: binning compatibility of two axes, used by
`Add` (body in the `.cpp` files, not among the sources): equal `channels`,
`left` and `right`, edges compared exactly. -/
def Axis.compatible (a b : Axis) : Prop :=
  a.channels = b.channels ∧ a.left = b.left ∧ a.right = b.right

instance (a b : Axis) : Decidable (a.compatible b) := by
  unfold Axis.compatible; infer_instance

/-- The two-dimensional histogram (`class Histogram2D`).  `bins` is the
flat row-major bin tensor of logical length
`xaxis.GetBinCountAll * yaxis.GetBinCountAll`; slot of `(xbin, ybin)` is
`xaxis.GetBinCountAll * ybin + xbin` as in the source's `data[]` indexing,
which the row-pointer layout mirrors slot for slot. -/
structure Histogram2D where
  xaxis : Axis
  yaxis : Axis
  entries : ℕ
  bins : List ℕ
deriving DecidableEq

/-- Flat row-major slot of a 2D index pair, `GetBinCountAll_x * ybin + xbin`
(`Histogram2D.h` line 128). -/
def Histogram2D.slot (h : Histogram2D) (xbin ybin : ℕ) : ℕ :=
  h.xaxis.GetBinCountAll * ybin + xbin

/-- Translated from `Histogram2D::FillDirect(const buf_t&)`
(`Histogram2D.h` lines 123-133): find both bin indices, add the weight to
the addressed slot (same logical slot in either storage layout), and
increment `entries` by 1 (unconditionally — the increment is outside the
`USE_ROWS` switch in the 2D source). -/
def Histogram2D.FillDirect (h : Histogram2D) (x y : Val) (w : ℕ) : Histogram2D :=
  let xbin := h.xaxis.FindBin x
  let ybin := h.yaxis.FindBin y
  { h with
    bins := h.bins.modify (fun c => c + w) (h.slot xbin ybin)
    entries := h.entries + 1 }

/-- Translated from `Histogram2D::Fill` with the buffer disabled
(`Histogram2D.h` lines 79-88, `H2D_USE_BUFFER` not defined): it just calls
`FillDirect`. -/
def Histogram2D.Fill (h : Histogram2D) (x y : Val) (w : ℕ) : Histogram2D :=
  h.FillDirect x y w

/-- Translated from `Histogram2D::GetEntries` (`Histogram2D.h` lines
116-117): `entries` is a `size_t` but the accessor returns `int`; the
`size_t → int` narrowing is modelled as two's-complement truncation to 32
bits. -/
def int32ofNat (n : ℕ) : ℤ := (((n + 2 ^ 31) % 2 ^ 32 : ℕ) : ℤ) - 2 ^ 31

/-- `Histogram2D::GetEntries`, returning the narrowed `int` value. -/
def Histogram2D.GetEntries (h : Histogram2D) : ℤ := int32ofNat h.entries

/-- Modelled from the spec: the `Histogram2D` constructor body
(`Histogram2D.cpp`, not among the sources): the bin tensor is allocated
with `bins_all_x * bins_all_y` slots, all zero, and `entries` starts at 0. -/
def Histogram2D.init (xax yax : Axis) : Histogram2D :=
  { xaxis := xax, yaxis := yax, entries := 0
    bins := List.replicate (xax.GetBinCountAll * yax.GetBinCountAll) 0 }

/-- Well-formedness maintained by construction: both axes satisfy the
constructor precondition and the tensor has the full `bins_all` product of
slots. -/
def Histogram2D.WF (h : Histogram2D) : Prop :=
  h.xaxis.Valid ∧ h.yaxis.Valid ∧
    h.bins.length = h.xaxis.GetBinCountAll * h.yaxis.GetBinCountAll

instance (h : Histogram2D) : Decidable h.WF := by
  unfold Histogram2D.WF; infer_instance

/-- Modelled from the spec: `Histogram2D::GetBinContent`
(`Histogram2D.cpp`, not among the sources).  Indices are signed
(`Axis::index_t`); out-of-range indices return 0 and never fail. -/
def Histogram2D.GetBinContent (h : Histogram2D) (xbin ybin : ℤ) : ℕ :=
  if 0 ≤ xbin ∧ xbin ≤ h.xaxis.channels + 1 ∧ 0 ≤ ybin ∧ ybin ≤ h.yaxis.channels + 1 then
    h.bins.getD (h.slot xbin.toNat ybin.toNat) 0
  else 0

/-- Modelled from the spec: `Histogram2D::SetBinContent`
(`Histogram2D.cpp`, not among the sources).  Writes the value at the slot;
out-of-range indices are silently ignored; `entries` is not touched. -/
def Histogram2D.SetBinContent (h : Histogram2D) (xbin ybin : ℤ) (c : ℕ) : Histogram2D :=
  if 0 ≤ xbin ∧ xbin ≤ h.xaxis.channels + 1 ∧ 0 ≤ ybin ∧ ybin ≤ h.yaxis.channels + 1 then
    { h with bins := h.bins.set (h.slot xbin.toNat ybin.toNat) c }
  else h

/-- Modelled from the spec: `Histogram2D::Reset` (`Histogram2D.cpp`, not
among the sources): zeroes the full `bins_all` product of slots and sets
`entries` to 0. -/
def Histogram2D.Reset (h : Histogram2D) : Histogram2D :=
  { h with
    bins := List.replicate (h.xaxis.GetBinCountAll * h.yaxis.GetBinCountAll) 0
    entries := 0 }

/-- Modelled from the spec: `Histogram2D::Add` (`Histogram2D.cpp`, not
among the sources).  Validates binning compatibility first; on mismatch
reports `BinningMismatch` leaving `self` untouched; on success adds
`scale * other[s]` to every slot and `other.entries` to `entries`.  The
result pairs the new state of `self` with the error, if any. -/
def Histogram2D.Add (h other : Histogram2D) (scale : ℕ) :
    Histogram2D × Option HistErr :=
  if h.xaxis.compatible other.xaxis ∧ h.yaxis.compatible other.yaxis then
    ({ h with
        bins := List.zipWith (fun a b => a + scale * b) h.bins other.bins
        entries := h.entries + other.entries }, none)
  else (h, some .BinningMismatch)

/-- The three-dimensional histogram (`class Histogram3D`).  `bins` is the
flat row-major bin tensor of logical length
`bins_all_x * bins_all_y * bins_all_z`; both physical layouts of the
source address the same logical slot. -/
structure Histogram3D where
  xaxis : Axis
  yaxis : Axis
  zaxis : Axis
  entries : ℕ
  bins : List ℕ
deriving DecidableEq

/-- Flat row-major slot of a 3D index triple,
`bins_all_x * bins_all_y * zbin + bins_all_x * ybin + xbin`
(`Histogram3D.h` lines 142-143). -/
def Histogram3D.slot (h : Histogram3D) (xbin ybin zbin : ℕ) : ℕ :=
  h.xaxis.GetBinCountAll * h.yaxis.GetBinCountAll * zbin +
    h.xaxis.GetBinCountAll * ybin + xbin

/-- Translated from `Histogram3D::FillDirect(const buf_t&)`
(`Histogram3D.h` lines 136-148): find the three bin indices and add the
weight to the addressed slot.  `useRows` is the compile-time `USE_ROWS`
switch: both branches address the same logical slot, but the statement
`entries += 1` (line 146) sits inside the `USE_ROWS` branch only, so with
the flat layout (`useRows = false`) `entries` is not incremented.  The
header hardwires `USE_ROWS` to 1. -/
def Histogram3D.FillDirect (useRows : Bool) (h : Histogram3D) (x y z : Val) (w : ℕ) :
    Histogram3D :=
  let xbin := h.xaxis.FindBin x
  let ybin := h.yaxis.FindBin y
  let zbin := h.zaxis.FindBin z
  { h with
    bins := h.bins.modify (fun c => c + w) (h.slot xbin ybin zbin)
    entries := if useRows then h.entries + 1 else h.entries }

/-- Translated from `Histogram3D::Fill` with the buffer disabled
(`Histogram3D.h` lines 83-93, `H3D_USE_BUFFER` not defined): it calls the
private `FillDirect(x, y, z, weight)` overload, whose body (not among the
sources) delegates to the inline `FillDirect(const buf_t&)`. -/
def Histogram3D.Fill (useRows : Bool) (h : Histogram3D) (x y z : Val) (w : ℕ) :
    Histogram3D :=
  Histogram3D.FillDirect useRows h x y z w

/-- `Histogram3D::GetEntries` (`Histogram3D.h` lines 129-130), with the
same `size_t → int` narrowing as the 2D accessor. -/
def Histogram3D.GetEntries (h : Histogram3D) : ℤ := int32ofNat h.entries

/-- Modelled from the spec: the `Histogram3D` constructor body
(`Histogram3D.cpp`, not among the sources): full zero tensor, zero
`entries`. -/
def Histogram3D.init (xax yax zax : Axis) : Histogram3D :=
  { xaxis := xax, yaxis := yax, zaxis := zax, entries := 0
    bins := List.replicate (xax.GetBinCountAll * yax.GetBinCountAll * zax.GetBinCountAll) 0 }

/-- Well-formedness maintained by construction for the 3D histogram. -/
def Histogram3D.WF (h : Histogram3D) : Prop :=
  h.xaxis.Valid ∧ h.yaxis.Valid ∧ h.zaxis.Valid ∧
    h.bins.length =
      h.xaxis.GetBinCountAll * h.yaxis.GetBinCountAll * h.zaxis.GetBinCountAll

instance (h : Histogram3D) : Decidable h.WF := by
  unfold Histogram3D.WF; infer_instance

/-- Modelled from the spec: `Histogram3D::GetBinContent`
(`Histogram3D.cpp`, not among the sources): out-of-range indices return 0
and never fail. -/
def Histogram3D.GetBinContent (h : Histogram3D) (xbin ybin zbin : ℤ) : ℕ :=
  if 0 ≤ xbin ∧ xbin ≤ h.xaxis.channels + 1 ∧ 0 ≤ ybin ∧ ybin ≤ h.yaxis.channels + 1 ∧
      0 ≤ zbin ∧ zbin ≤ h.zaxis.channels + 1 then
    h.bins.getD (h.slot xbin.toNat ybin.toNat zbin.toNat) 0
  else 0

/-- Modelled from the spec: `Histogram3D::SetBinContent`
(`Histogram3D.cpp`, not among the sources): out-of-range indices are
silently ignored; `entries` is not touched. -/
def Histogram3D.SetBinContent (h : Histogram3D) (xbin ybin zbin : ℤ) (c : ℕ) :
    Histogram3D :=
  if 0 ≤ xbin ∧ xbin ≤ h.xaxis.channels + 1 ∧ 0 ≤ ybin ∧ ybin ≤ h.yaxis.channels + 1 ∧
      0 ≤ zbin ∧ zbin ≤ h.zaxis.channels + 1 then
    { h with bins := h.bins.set (h.slot xbin.toNat ybin.toNat zbin.toNat) c }
  else h

/-- Modelled from the spec: `Histogram3D::Reset` (`Histogram3D.cpp`, not
among the sources): zeroes the full `bins_all` product and `entries`. -/
def Histogram3D.Reset (h : Histogram3D) : Histogram3D :=
  { h with
    bins := List.replicate
      (h.xaxis.GetBinCountAll * h.yaxis.GetBinCountAll * h.zaxis.GetBinCountAll) 0
    entries := 0 }

/-- Modelled from the spec: `Histogram3D::Add` (`Histogram3D.cpp`, not
among the sources), with the same all-or-nothing contract as the 2D
`Add`. -/
def Histogram3D.Add (h other : Histogram3D) (scale : ℕ) :
    Histogram3D × Option HistErr :=
  if h.xaxis.compatible other.xaxis ∧ h.yaxis.compatible other.yaxis ∧
      h.zaxis.compatible other.zaxis then
    ({ h with
        bins := List.zipWith (fun a b => a + scale * b) h.bins other.bins
        entries := h.entries + other.entries }, none)
  else (h, some .BinningMismatch)

/-! ### The optional write-back buffer (`H2D_USE_BUFFER` / `H3D_USE_BUFFER`)

`Fill` with the buffer enabled (`Histogram2D.h` line 84, `Histogram3D.h`
line 89) pushes the sample onto `buffer` and calls `FlushBuffer` once
`buffer.size() >= buffer_max`.  `FlushBuffer`'s body is not among the
sources; it is modelled from the spec as replaying every buffered sample
through `FillDirect` and clearing the buffer.  The spec also mandates a
flush on destruction, so the final observable state is the one after a
terminal flush. -/

/-- Buffer capacity, `buffer_max = 4096` in both headers. -/
def buffer_max : ℕ := 4096

/-- A 2D histogram together with its pending write-back buffer
(field `buffer_t buffer` of `Histogram2D`); one buffered sample is a
`buf_t` record `(x, y, w)`. -/
structure Buffered2D where
  hist : Histogram2D
  buffer : List (Val × Val × ℕ)
deriving DecidableEq

/-- Modelled from the spec: `Histogram2D::FlushBuffer` (body not among the
sources): replays each buffered sample through `FillDirect` in order and
empties the buffer. -/
def Buffered2D.FlushBuffer (b : Buffered2D) : Buffered2D :=
  { hist := b.buffer.foldl (fun h s => h.FillDirect s.1 s.2.1 s.2.2) b.hist
    buffer := [] }

/-- Translated from `Histogram2D::Fill` with the buffer enabled
(`Histogram2D.h` line 84): push the sample, then flush when the buffer has
reached `buffer_max`. -/
def Buffered2D.Fill (b : Buffered2D) (x y : Val) (w : ℕ) : Buffered2D :=
  let pushed : Buffered2D := { b with buffer := b.buffer ++ [(x, y, w)] }
  if buffer_max ≤ pushed.buffer.length then pushed.FlushBuffer else pushed

/-- A 3D histogram with its pending write-back buffer; one buffered
sample is a `buf_t` record `(x, y, z, w)`. -/
structure Buffered3D where
  hist : Histogram3D
  buffer : List (Val × Val × Val × ℕ)
deriving DecidableEq

/-- Modelled from the spec: `Histogram3D::FlushBuffer` (body not among the
sources): replays each buffered sample through the inline
`FillDirect(const buf_t&)` in order and empties the buffer. -/
def Buffered3D.FlushBuffer (useRows : Bool) (b : Buffered3D) : Buffered3D :=
  { hist := b.buffer.foldl
      (fun h s => Histogram3D.FillDirect useRows h s.1 s.2.1 s.2.2.1 s.2.2.2) b.hist
    buffer := [] }

/-- Translated from `Histogram3D::Fill` with the buffer enabled
(`Histogram3D.h` line 89): push the sample, then flush when the buffer has
reached `buffer_max`. -/
def Buffered3D.Fill (useRows : Bool) (b : Buffered3D) (x y z : Val) (w : ℕ) :
    Buffered3D :=
  let pushed : Buffered3D := { b with buffer := b.buffer ++ [(x, y, z, w)] }
  if buffer_max ≤ pushed.buffer.length then Buffered3D.FlushBuffer useRows pushed
  else pushed

/-! ### Sequences of fills -/

/-- Replay a list of samples through the unbuffered 2D `Fill`. -/
def Histogram2D.fillAll (h : Histogram2D) (samples : List (Val × Val × ℕ)) :
    Histogram2D :=
  samples.foldl (fun h s => h.Fill s.1 s.2.1 s.2.2) h

/-- Replay a list of samples through the unbuffered 3D `Fill`. -/
def Histogram3D.fillAll (useRows : Bool) (h : Histogram3D)
    (samples : List (Val × Val × Val × ℕ)) : Histogram3D :=
  samples.foldl (fun h s => Histogram3D.Fill useRows h s.1 s.2.1 s.2.2.1 s.2.2.2) h

/-- Replay a list of samples through the buffered 2D `Fill`. -/
def Buffered2D.fillAll (b : Buffered2D) (samples : List (Val × Val × ℕ)) :
    Buffered2D :=
  samples.foldl (fun b s => b.Fill s.1 s.2.1 s.2.2) b

/-- Replay a list of samples through the buffered 3D `Fill`. -/
def Buffered3D.fillAll (useRows : Bool) (b : Buffered3D)
    (samples : List (Val × Val × Val × ℕ)) : Buffered3D :=
  samples.foldl (fun b s => Buffered3D.Fill useRows b s.1 s.2.1 s.2.2.1 s.2.2.2) b

/-! ### Basic facts shared by the claim proofs -/

/-- On a valid axis, `FindBin` never exceeds the overflow index
`channels + 1`. -/
theorem Axis.FindBin_le (a : Axis) (hv : a.Valid) (v : Val) :
    a.FindBin v ≤ a.channels + 1 := by
  obtain ⟨hn, hlr⟩ := hv
  cases v with
  | nan => simp [Axis.FindBin]
  | real q =>
    simp only [Axis.FindBin]
    split_ifs with h1 h2
    · exact Nat.zero_le _
    · exact Nat.le_refl _
    · have hNpos : (0 : ℚ) < (a.channels : ℚ) := by exact_mod_cast hn
      have hw : 0 < a.width := div_pos (by linarith) hNpos
      have hmul : (a.channels : ℚ) * a.width = a.right - a.left := by
        rw [Axis.width, mul_div_cancel₀ _ (ne_of_gt hNpos)]
      have hq : (q - a.left) / a.width < (a.channels : ℚ) := by
        rw [div_lt_iff₀ hw, hmul]
        have : q < a.right := not_le.mp h2
        linarith
      have hf : ⌊(q - a.left) / a.width⌋ < (a.channels : ℤ) :=
        Int.floor_lt.mpr (by exact_mod_cast hq)
      omega

/-- Adding `w` at an in-range slot raises the list sum by `w`. -/
theorem sum_modify_add (w : ℕ) : ∀ (i : ℕ) (l : List ℕ), i < l.length →
    (l.modify (fun c => c + w) i).sum = l.sum + w
  | 0, [], h => by simp at h
  | 0, a :: l, _ => by
    simp only [List.modify_zero_cons, List.sum_cons]
    omega
  | i + 1, [], h => by simp at h
  | i + 1, a :: l, h => by
    simp only [List.modify_succ_cons, List.sum_cons]
    rw [sum_modify_add w i l (by simpa using h)]
    omega

/-- Row-major 2D slots stay below the tensor size. -/
theorem slot2D_lt (Nx Ny xbin ybin : ℕ) (hx : xbin < Nx) (hy : ybin < Ny) :
    Nx * ybin + xbin < Nx * Ny :=
  calc Nx * ybin + xbin < Nx * ybin + Nx := by omega
    _ = Nx * (ybin + 1) := by ring
    _ ≤ Nx * Ny := Nat.mul_le_mul (Nat.le_refl _) hy

/-- Row-major 3D slots stay below the tensor size. -/
theorem slot3D_lt (Nx Ny Nz xbin ybin zbin : ℕ)
    (hx : xbin < Nx) (hy : ybin < Ny) (hz : zbin < Nz) :
    Nx * Ny * zbin + Nx * ybin + xbin < Nx * Ny * Nz := by
  have h2 : Nx * ybin + xbin < Nx * Ny := slot2D_lt Nx Ny xbin ybin hx hy
  calc Nx * Ny * zbin + Nx * ybin + xbin < Nx * Ny * zbin + Nx * Ny := by omega
    _ = Nx * Ny * (zbin + 1) := by ring
    _ ≤ Nx * Ny * Nz := Nat.mul_le_mul (Nat.le_refl _) hz

/-- In a well-formed 2D histogram the slot of any admissible index pair is
inside the tensor. -/
theorem slot_lt2D (h : Histogram2D) (hwf : h.WF) (xbin ybin : ℕ)
    (hx : xbin ≤ h.xaxis.channels + 1) (hy : ybin ≤ h.yaxis.channels + 1) :
    h.slot xbin ybin < h.bins.length := by
  rw [hwf.2.2]
  exact slot2D_lt _ _ _ _
    (by unfold Axis.GetBinCountAll; omega) (by unfold Axis.GetBinCountAll; omega)

/-- In a well-formed 3D histogram the slot of any admissible index triple
is inside the tensor. -/
theorem slot_lt3D (h : Histogram3D) (hwf : h.WF) (xbin ybin zbin : ℕ)
    (hx : xbin ≤ h.xaxis.channels + 1) (hy : ybin ≤ h.yaxis.channels + 1)
    (hz : zbin ≤ h.zaxis.channels + 1) :
    h.slot xbin ybin zbin < h.bins.length := by
  rw [hwf.2.2.2]
  exact slot3D_lt _ _ _ _ _ _
    (by unfold Axis.GetBinCountAll; omega) (by unfold Axis.GetBinCountAll; omega)
    (by unfold Axis.GetBinCountAll; omega)

/-- Concrete axis of spec scenario S1: four regular bins on `[0, 4)`. -/
def axS1 : Axis := ⟨4, 0, 4⟩

/-- Concrete axis of spec scenario S6: two regular bins on `[0, 2)`. -/
def axS6 : Axis := ⟨2, 0, 2⟩

/-! ### C1 -/

/-- C1: the claim says every Fill advances `entries` by exactly 1 on ranks
1-3 regardless of the compiled storage layout.  The code violates this: in
`Histogram3D::FillDirect` the statement `entries += 1` sits inside the
`USE_ROWS` branch of the layout switch, so the flat-buffer layout never
advances `entries`.  Concretely, one fill of a fresh 2x2x2 3D histogram
leaves `entries` at 0 under the flat layout, while the row layout (and the
2D fill, whose increment is outside the switch) advances it to 1. -/
theorem C1_fill3D_flat_layout_entries_stuck :
    ((Histogram3D.init axS6 axS6 axS6).FillDirect false
        (.real (1/2)) (.real (1/2)) (.real (1/2)) 1).entries = 0 ∧
    ((Histogram3D.init axS6 axS6 axS6).FillDirect true
        (.real (1/2)) (.real (1/2)) (.real (1/2)) 1).entries = 1 ∧
    ((Histogram2D.init axS6 axS6).FillDirect (.real (1/2)) (.real (1/2)) 1).entries = 1 := by
  decide

/-! ### C2 -/

/-- C2: on a valid axis with `N` regular bins, `FindBin` returns 0 below
`left`, `N + 1` at or above `right` and for NaN, and
`1 + floor((v - left) / width)` in between; in particular
`FindBin(left) = 1` and `FindBin(right) = N + 1`. -/
theorem C2_FindBin_spec (a : Axis) (q : ℚ) (hv : a.Valid) :
    (q < a.left → a.FindBin (.real q) = 0) ∧
    (a.right ≤ q → a.FindBin (.real q) = a.channels + 1) ∧
    a.FindBin .nan = a.channels + 1 ∧
    (a.left ≤ q → q < a.right →
      a.FindBin (.real q) = 1 + (⌊(q - a.left) / a.width⌋).toNat) ∧
    a.FindBin (.real a.left) = 1 ∧
    a.FindBin (.real a.right) = a.channels + 1 := by
  obtain ⟨hn, hlr⟩ := hv
  refine ⟨?_, ?_, rfl, ?_, ?_, ?_⟩
  · intro hq
    simp [Axis.FindBin, hq]
  · intro hq
    have h1 : ¬ q < a.left := not_lt.mpr (le_trans hlr.le hq)
    simp [Axis.FindBin, h1, hq]
  · intro h1 h2
    simp [Axis.FindBin, not_lt.mpr h1, not_le.mpr h2]
  · simp [Axis.FindBin, lt_irrefl, not_le.mpr hlr]
  · simp [Axis.FindBin, not_lt.mpr hlr.le, le_refl]

/-- Witness for C2 on the S1 axis (N = 4 over `[0, 4)`) at `q = 2`. -/
theorem C2_FindBin_spec_witness :
    ((2 : ℚ) < axS1.left → axS1.FindBin (.real 2) = 0) ∧
    (axS1.right ≤ (2 : ℚ) → axS1.FindBin (.real 2) = axS1.channels + 1) ∧
    axS1.FindBin .nan = axS1.channels + 1 ∧
    (axS1.left ≤ (2 : ℚ) → (2 : ℚ) < axS1.right →
      axS1.FindBin (.real 2) = 1 + (⌊((2 : ℚ) - axS1.left) / axS1.width⌋).toNat) ∧
    axS1.FindBin (.real axS1.left) = 1 ∧
    axS1.FindBin (.real axS1.right) = axS1.channels + 1 :=
  C2_FindBin_spec axS1 2 (by decide)

/-! ### C3 -/

/-- C3: `Add` fails with `BinningMismatch` exactly when some axis of the
operand differs in `channels`, `left` or `right`, and on failure the
receiver is left completely unchanged, on both ranks in the sources. -/
theorem C3_Add_mismatch_all_or_nothing (h o : Histogram2D) (s : ℕ)
    (h3 o3 : Histogram3D) (s3 : ℕ) :
    ((h.Add o s).2 = some HistErr.BinningMismatch ↔
      ¬(h.xaxis.compatible o.xaxis ∧ h.yaxis.compatible o.yaxis)) ∧
    ((h.Add o s).2 = some HistErr.BinningMismatch → (h.Add o s).1 = h) ∧
    ((h3.Add o3 s3).2 = some HistErr.BinningMismatch ↔
      ¬(h3.xaxis.compatible o3.xaxis ∧ h3.yaxis.compatible o3.yaxis ∧
        h3.zaxis.compatible o3.zaxis)) ∧
    ((h3.Add o3 s3).2 = some HistErr.BinningMismatch → (h3.Add o3 s3).1 = h3) := by
  unfold Histogram2D.Add Histogram3D.Add
  split_ifs with hc hc3 <;> simp_all

/-- A fresh 2D histogram on the S1 axes. -/
def hS1 : Histogram2D := Histogram2D.init axS1 axS1

/-- A fresh 2D histogram whose x axis disagrees with `hS1`. -/
def hS1x : Histogram2D := Histogram2D.init axS6 axS1

/-- A fresh 3D histogram on the S6 axes. -/
def h3S6 : Histogram3D := Histogram3D.init axS6 axS6 axS6

/-- A fresh 3D histogram whose z axis disagrees with `h3S6`. -/
def h3S6z : Histogram3D := Histogram3D.init axS6 axS6 axS1

/-- Witness for C3 on concrete incompatible pairs. -/
theorem C3_Add_mismatch_all_or_nothing_witness :
    ((hS1.Add hS1x 1).2 = some HistErr.BinningMismatch ↔
      ¬(hS1.xaxis.compatible hS1x.xaxis ∧ hS1.yaxis.compatible hS1x.yaxis)) ∧
    ((hS1.Add hS1x 1).2 = some HistErr.BinningMismatch → (hS1.Add hS1x 1).1 = hS1) ∧
    ((h3S6.Add h3S6z 1).2 = some HistErr.BinningMismatch ↔
      ¬(h3S6.xaxis.compatible h3S6z.xaxis ∧ h3S6.yaxis.compatible h3S6z.yaxis ∧
        h3S6.zaxis.compatible h3S6z.zaxis)) ∧
    ((h3S6.Add h3S6z 1).2 = some HistErr.BinningMismatch → (h3S6.Add h3S6z 1).1 = h3S6) :=
  C3_Add_mismatch_all_or_nothing hS1 hS1x 1 h3S6 h3S6z 1

/-! ### C4 -/

/-- Reading one slot of the pointwise `Add` combination. -/
theorem getD_zipWith_add (s : ℕ) (l m : List ℕ) (i : ℕ) (hi : i < l.length)
    (hlen : l.length = m.length) :
    (List.zipWith (fun x y => x + s * y) l m).getD i 0 =
      l.getD i 0 + s * m.getD i 0 := by
  rcases hl : l[i]? with _ | a
  · rw [List.getElem?_eq_none_iff] at hl
    omega
  rcases hm : m[i]? with _ | b
  · rw [List.getElem?_eq_none_iff] at hm
    omega
  simp [List.getD_eq_getElem?_getD, List.getElem?_zipWith, hl, hm]

/-- Scaling by `s1` and then by `s2` combines to scaling by `s1 + s2`. -/
theorem zipWith_scale_twice (s1 s2 : ℕ) : ∀ (l m : List ℕ),
    List.zipWith (fun x y => x + s2 * y) (List.zipWith (fun x y => x + s1 * y) l m) m =
      List.zipWith (fun x y => x + (s1 + s2) * y) l m
  | [], m => by cases m <;> simp
  | x :: l, [] => by simp
  | x :: l, y :: m => by
    simp only [List.zipWith_cons_cons, zipWith_scale_twice s1 s2 l m]
    congr 1
    ring

/-- C4: a compatible `Add` sets every slot to `self[s] + scale * other[s]`
and adds the operand's entries once, and two successive `Add`s with scales
`s1`, `s2` yield the same bin contents as one `Add` with `s1 + s2`. -/
theorem C4_Add_effect_linear (h a : Histogram2D) (s s1 s2 i : ℕ)
    (hcx : h.xaxis.compatible a.xaxis) (hcy : h.yaxis.compatible a.yaxis)
    (hlen : h.bins.length = a.bins.length) (hi : i < h.bins.length) :
    (h.Add a s).1.bins.getD i 0 = h.bins.getD i 0 + s * a.bins.getD i 0 ∧
    (h.Add a s).1.entries = h.entries + a.entries ∧
    ((h.Add a s1).1.Add a s2).1.bins = (h.Add a (s1 + s2)).1.bins := by
  have hc : h.xaxis.compatible a.xaxis ∧ h.yaxis.compatible a.yaxis := ⟨hcx, hcy⟩
  have e1 : ∀ t : ℕ, (h.Add a t).1 =
      { h with bins := List.zipWith (fun x y => x + t * y) h.bins a.bins
               entries := h.entries + a.entries } := by
    intro t
    unfold Histogram2D.Add
    rw [if_pos hc]
  refine ⟨?_, ?_, ?_⟩
  · rw [e1 s]
    exact getD_zipWith_add s _ _ i hi hlen
  · rw [e1 s]
  · rw [e1 s1, e1 (s1 + s2)]
    unfold Histogram2D.Add
    rw [if_pos hc]
    exact zipWith_scale_twice s1 s2 h.bins a.bins

/-- A second fresh 2D histogram on the S6 axes, compatible with the
first. -/
def hS6 : Histogram2D := Histogram2D.init axS6 axS6

/-- Witness for C4 on two fresh compatible 2D histograms. -/
theorem C4_Add_effect_linear_witness :
    (hS6.Add hS6 2).1.bins.getD 5 0 = hS6.bins.getD 5 0 + 2 * hS6.bins.getD 5 0 ∧
    (hS6.Add hS6 2).1.entries = hS6.entries + hS6.entries ∧
    ((hS6.Add hS6 1).1.Add hS6 2).1.bins = (hS6.Add hS6 (1 + 2)).1.bins :=
  C4_Add_effect_linear hS6 hS6 2 1 2 5 (by decide) (by decide) rfl (by decide)

/-! ### C6 -/

/-- C6: for in-range indices `SetBinContent` then `GetBinContent` round
trips; out-of-range reads return 0 and out-of-range writes leave the whole
histogram unchanged, on both ranks in the sources.  Both operations are
total, so neither can fail. -/
theorem C6_SetGet_roundtrip (h : Histogram2D) (hwf : h.WF) (xb yb : ℤ) (v : ℕ)
    (h3 : Histogram3D) (hwf3 : h3.WF) (xb3 yb3 zb3 : ℤ) (v3 : ℕ) :
    ((0 ≤ xb ∧ xb ≤ h.xaxis.channels + 1 ∧ 0 ≤ yb ∧ yb ≤ h.yaxis.channels + 1) →
      (h.SetBinContent xb yb v).GetBinContent xb yb = v) ∧
    (¬(0 ≤ xb ∧ xb ≤ h.xaxis.channels + 1 ∧ 0 ≤ yb ∧ yb ≤ h.yaxis.channels + 1) →
      h.GetBinContent xb yb = 0 ∧ h.SetBinContent xb yb v = h) ∧
    ((0 ≤ xb3 ∧ xb3 ≤ h3.xaxis.channels + 1 ∧ 0 ≤ yb3 ∧ yb3 ≤ h3.yaxis.channels + 1 ∧
        0 ≤ zb3 ∧ zb3 ≤ h3.zaxis.channels + 1) →
      (h3.SetBinContent xb3 yb3 zb3 v3).GetBinContent xb3 yb3 zb3 = v3) ∧
    (¬(0 ≤ xb3 ∧ xb3 ≤ h3.xaxis.channels + 1 ∧ 0 ≤ yb3 ∧ yb3 ≤ h3.yaxis.channels + 1 ∧
        0 ≤ zb3 ∧ zb3 ≤ h3.zaxis.channels + 1) →
      h3.GetBinContent xb3 yb3 zb3 = 0 ∧ h3.SetBinContent xb3 yb3 zb3 v3 = h3) := by
  refine ⟨?_, ?_, ?_, ?_⟩
  · rintro ⟨hx0, hx1, hy0, hy1⟩
    have hxn : xb.toNat ≤ h.xaxis.channels + 1 := by omega
    have hyn : yb.toNat ≤ h.yaxis.channels + 1 := by omega
    have hslot : h.slot xb.toNat yb.toNat < h.bins.length := slot_lt2D h hwf _ _ hxn hyn
    have hset : h.SetBinContent xb yb v =
        { h with bins := h.bins.set (h.slot xb.toNat yb.toNat) v } := by
      unfold Histogram2D.SetBinContent
      rw [if_pos ⟨hx0, hx1, hy0, hy1⟩]
    rw [hset]
    unfold Histogram2D.GetBinContent
    rw [if_pos ⟨hx0, hx1, hy0, hy1⟩]
    show (h.bins.set (h.slot xb.toNat yb.toNat) v).getD (h.slot xb.toNat yb.toNat) 0 = v
    simp [List.getD_eq_getElem?_getD, List.getElem?_set_self hslot]
  · intro hout
    unfold Histogram2D.SetBinContent Histogram2D.GetBinContent
    rw [if_neg hout, if_neg hout]
    exact ⟨rfl, rfl⟩
  · rintro ⟨hx0, hx1, hy0, hy1, hz0, hz1⟩
    have hxn : xb3.toNat ≤ h3.xaxis.channels + 1 := by omega
    have hyn : yb3.toNat ≤ h3.yaxis.channels + 1 := by omega
    have hzn : zb3.toNat ≤ h3.zaxis.channels + 1 := by omega
    have hslot : h3.slot xb3.toNat yb3.toNat zb3.toNat < h3.bins.length :=
      slot_lt3D h3 hwf3 _ _ _ hxn hyn hzn
    have hset : h3.SetBinContent xb3 yb3 zb3 v3 =
        { h3 with bins := h3.bins.set (h3.slot xb3.toNat yb3.toNat zb3.toNat) v3 } := by
      unfold Histogram3D.SetBinContent
      rw [if_pos ⟨hx0, hx1, hy0, hy1, hz0, hz1⟩]
    rw [hset]
    unfold Histogram3D.GetBinContent
    rw [if_pos ⟨hx0, hx1, hy0, hy1, hz0, hz1⟩]
    show (h3.bins.set (h3.slot xb3.toNat yb3.toNat zb3.toNat) v3).getD
      (h3.slot xb3.toNat yb3.toNat zb3.toNat) 0 = v3
    simp [List.getD_eq_getElem?_getD, List.getElem?_set_self hslot]
  · intro hout
    unfold Histogram3D.SetBinContent Histogram3D.GetBinContent
    rw [if_neg hout, if_neg hout]
    exact ⟨rfl, rfl⟩

/-- Witness for C6 on fresh 2D and 3D histograms at index (1, 1) and
(1, 1, 1) with value 7. -/
theorem C6_SetGet_roundtrip_witness :
    ((0 ≤ (1 : ℤ) ∧ (1 : ℤ) ≤ hS6.xaxis.channels + 1 ∧ 0 ≤ (1 : ℤ) ∧
        (1 : ℤ) ≤ hS6.yaxis.channels + 1) →
      (hS6.SetBinContent 1 1 7).GetBinContent 1 1 = 7) ∧
    (¬(0 ≤ (1 : ℤ) ∧ (1 : ℤ) ≤ hS6.xaxis.channels + 1 ∧ 0 ≤ (1 : ℤ) ∧
        (1 : ℤ) ≤ hS6.yaxis.channels + 1) →
      hS6.GetBinContent 1 1 = 0 ∧ hS6.SetBinContent 1 1 7 = hS6) ∧
    ((0 ≤ (1 : ℤ) ∧ (1 : ℤ) ≤ h3S6.xaxis.channels + 1 ∧ 0 ≤ (1 : ℤ) ∧
        (1 : ℤ) ≤ h3S6.yaxis.channels + 1 ∧ 0 ≤ (1 : ℤ) ∧
        (1 : ℤ) ≤ h3S6.zaxis.channels + 1) →
      (h3S6.SetBinContent 1 1 1 7).GetBinContent 1 1 1 = 7) ∧
    (¬(0 ≤ (1 : ℤ) ∧ (1 : ℤ) ≤ h3S6.xaxis.channels + 1 ∧ 0 ≤ (1 : ℤ) ∧
        (1 : ℤ) ≤ h3S6.yaxis.channels + 1 ∧ 0 ≤ (1 : ℤ) ∧
        (1 : ℤ) ≤ h3S6.zaxis.channels + 1) →
      h3S6.GetBinContent 1 1 1 = 0 ∧ h3S6.SetBinContent 1 1 1 7 = h3S6) :=
  C6_SetGet_roundtrip hS6 (by decide) 1 1 7 h3S6 (by decide) 1 1 1 7

/-! ### C7 -/

/-- C7: `Reset` zeroes every slot of the full `bins_all` tensor, zeroes
`entries`, and is idempotent, on both ranks in the sources. -/
theorem C7_Reset_zeroes_idempotent (h : Histogram2D) (i : ℕ)
    (h3 : Histogram3D) (i3 : ℕ) :
    h.Reset.entries = 0 ∧
    h.Reset.bins.length = h.xaxis.GetBinCountAll * h.yaxis.GetBinCountAll ∧
    h.Reset.bins.getD i 0 = 0 ∧
    h.Reset.Reset = h.Reset ∧
    h3.Reset.entries = 0 ∧
    h3.Reset.bins.length =
      h3.xaxis.GetBinCountAll * h3.yaxis.GetBinCountAll * h3.zaxis.GetBinCountAll ∧
    h3.Reset.bins.getD i3 0 = 0 ∧
    h3.Reset.Reset = h3.Reset := by
  refine ⟨rfl, by simp [Histogram2D.Reset], ?_, rfl, rfl, by simp [Histogram3D.Reset], ?_, rfl⟩
  · simp only [Histogram2D.Reset, List.getD_eq_getElem?_getD, List.getElem?_replicate]
    split <;> rfl
  · simp only [Histogram3D.Reset, List.getD_eq_getElem?_getD, List.getElem?_replicate]
    split <;> rfl

/-! ### C5 -/

/-- The unbuffered 2D `Fill` is `FillDirect`. -/
theorem fill_eq2D (h : Histogram2D) (x y : Val) (w : ℕ) :
    h.Fill x y w = h.FillDirect x y w := rfl

/-- The unbuffered 3D `Fill` is `FillDirect`. -/
theorem fill_eq3D (useRows : Bool) (h : Histogram3D) (x y z : Val) (w : ℕ) :
    Histogram3D.Fill useRows h x y z w = Histogram3D.FillDirect useRows h x y z w := rfl

/-- On a well-formed 2D histogram, one direct fill keeps it well formed,
adds one entry, and adds the weight to the total bin sum. -/
theorem fillDirect_props2D (h : Histogram2D) (hwf : h.WF) (x y : Val) (w : ℕ) :
    (h.FillDirect x y w).WF ∧
    (h.FillDirect x y w).entries = h.entries + 1 ∧
    (h.FillDirect x y w).bins.sum = h.bins.sum + w := by
  have hx := h.xaxis.FindBin_le hwf.1 x
  have hy := h.yaxis.FindBin_le hwf.2.1 y
  have hslot : h.slot (h.xaxis.FindBin x) (h.yaxis.FindBin y) < h.bins.length :=
    slot_lt2D h hwf _ _ hx hy
  refine ⟨⟨hwf.1, hwf.2.1, ?_⟩, rfl, ?_⟩
  · show (h.bins.modify (fun c => c + w)
      (h.slot (h.xaxis.FindBin x) (h.yaxis.FindBin y))).length =
        h.xaxis.GetBinCountAll * h.yaxis.GetBinCountAll
    simp [hwf.2.2]
  · exact sum_modify_add w _ _ hslot

/-- On a well-formed 3D histogram, one direct fill keeps it well formed,
adds one entry under the row layout, and adds the weight to the total bin
sum under either layout. -/
theorem fillDirect_props3D (useRows : Bool) (h : Histogram3D) (hwf : h.WF)
    (x y z : Val) (w : ℕ) :
    (Histogram3D.FillDirect useRows h x y z w).WF ∧
    (Histogram3D.FillDirect true h x y z w).entries = h.entries + 1 ∧
    (Histogram3D.FillDirect useRows h x y z w).bins.sum = h.bins.sum + w := by
  have hx := h.xaxis.FindBin_le hwf.1 x
  have hy := h.yaxis.FindBin_le hwf.2.1 y
  have hz := h.zaxis.FindBin_le hwf.2.2.1 z
  have hslot : h.slot (h.xaxis.FindBin x) (h.yaxis.FindBin y) (h.zaxis.FindBin z)
      < h.bins.length := slot_lt3D h hwf _ _ _ hx hy hz
  refine ⟨⟨hwf.1, hwf.2.1, hwf.2.2.1, ?_⟩, rfl, ?_⟩
  · show (h.bins.modify (fun c => c + w)
      (h.slot (h.xaxis.FindBin x) (h.yaxis.FindBin y) (h.zaxis.FindBin z))).length =
        h.xaxis.GetBinCountAll * h.yaxis.GetBinCountAll * h.zaxis.GetBinCountAll
    simp [hwf.2.2.2]
  · exact sum_modify_add w _ _ hslot

/-- Replaying samples through the unbuffered 2D `Fill` adds one entry per
sample and one weight per sample to the bin sum. -/
theorem fillAll_props2D (samples : List (Val × Val × ℕ)) :
    ∀ (h : Histogram2D), h.WF →
      (h.fillAll samples).entries = h.entries + samples.length ∧
      (h.fillAll samples).bins.sum = h.bins.sum + (samples.map (fun s => s.2.2)).sum := by
  induction samples with
  | nil =>
    intro h _
    exact ⟨rfl, rfl⟩
  | cons s rest ih =>
    intro h hwf
    have hp := fillDirect_props2D h hwf s.1 s.2.1 s.2.2
    have hrec := ih (h.FillDirect s.1 s.2.1 s.2.2) hp.1
    show ((h.Fill s.1 s.2.1 s.2.2).fillAll rest).entries = _ ∧
      ((h.Fill s.1 s.2.1 s.2.2).fillAll rest).bins.sum = _
    rw [fill_eq2D]
    constructor
    · rw [hrec.1, hp.2.1]
      simp only [List.length_cons]
      omega
    · rw [hrec.2, hp.2.2]
      simp only [List.map_cons, List.sum_cons]
      omega

/-- Replaying samples through the unbuffered 3D `Fill` under the row
layout adds one entry per sample and one weight per sample to the bin
sum. -/
theorem fillAll_props3D (samples : List (Val × Val × Val × ℕ)) :
    ∀ (h : Histogram3D), h.WF →
      (Histogram3D.fillAll true h samples).entries = h.entries + samples.length ∧
      (Histogram3D.fillAll true h samples).bins.sum =
        h.bins.sum + (samples.map (fun s => s.2.2.2)).sum := by
  induction samples with
  | nil =>
    intro h _
    exact ⟨rfl, rfl⟩
  | cons s rest ih =>
    intro h hwf
    have hp := fillDirect_props3D true h hwf s.1 s.2.1 s.2.2.1 s.2.2.2
    have hrec := ih (Histogram3D.FillDirect true h s.1 s.2.1 s.2.2.1 s.2.2.2) hp.1
    show ((Histogram3D.Fill true h s.1 s.2.1 s.2.2.1 s.2.2.2).fillAll true rest).entries = _ ∧
      ((Histogram3D.Fill true h s.1 s.2.1 s.2.2.1 s.2.2.2).fillAll true rest).bins.sum = _
    rw [fill_eq3D]
    constructor
    · rw [hrec.1, hp.2.1]
      simp only [List.length_cons]
      omega
    · rw [hrec.2, hp.2.2]
      simp only [List.map_cons, List.sum_cons]
      omega

/-- A freshly constructed 2D histogram is well formed when its axes meet
the constructor precondition. -/
theorem init_WF2D (xax yax : Axis) (hx : xax.Valid) (hy : yax.Valid) :
    (Histogram2D.init xax yax).WF :=
  ⟨hx, hy, by simp [Histogram2D.init]⟩

/-- A freshly constructed 3D histogram is well formed when its axes meet
the constructor precondition. -/
theorem init_WF3D (xax yax zax : Axis)
    (hx : xax.Valid) (hy : yax.Valid) (hz : zax.Valid) :
    (Histogram3D.init xax yax zax).WF :=
  ⟨hx, hy, hz, by simp [Histogram3D.init]⟩

/-- C5: starting from construction (and `Reset` reproduces exactly the
constructed state with the same axes), a sequence of `k` fills leaves
`entries = k` and makes the total content of all bins, underflow and
overflow included, equal to the sum of the fill weights — on both ranks in
the sources, the 3D one under the layout the headers hardwire
(`USE_ROWS`). -/
theorem C5_fill_conservation (xax yax : Axis) (hx : xax.Valid) (hy : yax.Valid)
    (samples : List (Val × Val × ℕ)) (h0 : Histogram2D)
    (xax3 yax3 zax3 : Axis) (hx3 : xax3.Valid) (hy3 : yax3.Valid) (hz3 : zax3.Valid)
    (samples3 : List (Val × Val × Val × ℕ)) (h03 : Histogram3D) :
    ((Histogram2D.init xax yax).fillAll samples).entries = samples.length ∧
    ((Histogram2D.init xax yax).fillAll samples).bins.sum =
      (samples.map (fun s => s.2.2)).sum ∧
    h0.Reset = Histogram2D.init h0.xaxis h0.yaxis ∧
    ((Histogram3D.init xax3 yax3 zax3).fillAll true samples3).entries = samples3.length ∧
    ((Histogram3D.init xax3 yax3 zax3).fillAll true samples3).bins.sum =
      (samples3.map (fun s => s.2.2.2)).sum ∧
    h03.Reset = Histogram3D.init h03.xaxis h03.yaxis h03.zaxis := by
  have h2 := fillAll_props2D samples _ (init_WF2D xax yax hx hy)
  have h3 := fillAll_props3D samples3 _ (init_WF3D xax3 yax3 zax3 hx3 hy3 hz3)
  refine ⟨?_, ?_, rfl, ?_, ?_, rfl⟩
  · rw [h2.1]
    show 0 + samples.length = samples.length
    omega
  · rw [h2.2]
    show List.sum (List.replicate _ 0) + _ = _
    simp
  · rw [h3.1]
    show 0 + samples3.length = samples3.length
    omega
  · rw [h3.2]
    show List.sum (List.replicate _ 0) + _ = _
    simp

/-- Witness for C5: two fills (one NaN, one in range) on fresh S6-axis
histograms. -/
theorem C5_fill_conservation_witness :
    ((Histogram2D.init axS6 axS6).fillAll
        [(.real 1, .real 1, 2), (.nan, .real 5, 3)]).entries =
      ([(.real 1, .real 1, 2), (.nan, .real 5, 3)] : List (Val × Val × ℕ)).length ∧
    ((Histogram2D.init axS6 axS6).fillAll
        [(.real 1, .real 1, 2), (.nan, .real 5, 3)]).bins.sum =
      (([(.real 1, .real 1, 2), (.nan, .real 5, 3)] : List (Val × Val × ℕ)).map
        (fun s => s.2.2)).sum ∧
    hS6.Reset = Histogram2D.init hS6.xaxis hS6.yaxis ∧
    ((Histogram3D.init axS6 axS6 axS6).fillAll true
        [(.real 1, .real 1, .real 1, 7)]).entries =
      ([(.real 1, .real 1, .real 1, 7)] : List (Val × Val × Val × ℕ)).length ∧
    ((Histogram3D.init axS6 axS6 axS6).fillAll true
        [(.real 1, .real 1, .real 1, 7)]).bins.sum =
      (([(.real 1, .real 1, .real 1, 7)] : List (Val × Val × Val × ℕ)).map
        (fun s => s.2.2.2)).sum ∧
    h3S6.Reset = Histogram3D.init h3S6.xaxis h3S6.yaxis h3S6.zaxis :=
  C5_fill_conservation axS6 axS6 (by decide) (by decide)
    [(.real 1, .real 1, 2), (.nan, .real 5, 3)] hS6
    axS6 axS6 axS6 (by decide) (by decide) (by decide)
    [(.real 1, .real 1, .real 1, 7)] h3S6

/-! ### C8 -/

/-- Flushing an already flushed 2D buffer changes nothing. -/
theorem flush_flush2D (b : Buffered2D) :
    b.FlushBuffer.FlushBuffer = b.FlushBuffer := rfl

/-- Flushing an already flushed 3D buffer changes nothing. -/
theorem flush_flush3D (useRows : Bool) (b : Buffered3D) :
    Buffered3D.FlushBuffer useRows (Buffered3D.FlushBuffer useRows b) =
      Buffered3D.FlushBuffer useRows b := rfl

/-- One buffered 2D `Fill` followed by a flush reaches the same histogram
as flushing first and filling directly. -/
theorem fill_flush_comm2D (b : Buffered2D) (x y : Val) (w : ℕ) :
    (b.Fill x y w).FlushBuffer.hist = b.FlushBuffer.hist.FillDirect x y w := by
  have key : ∀ (buf : List (Val × Val × ℕ)) (g : Histogram2D),
      (Buffered2D.FlushBuffer ⟨g, buf ++ [(x, y, w)]⟩).hist =
        (Buffered2D.FlushBuffer ⟨g, buf⟩).hist.FillDirect x y w := by
    intro buf g
    show List.foldl _ g (buf ++ [(x, y, w)]) = _
    rw [List.foldl_append]
    rfl
  show (if buffer_max ≤ ({ hist := b.hist, buffer := b.buffer ++ [(x, y, w)] } : Buffered2D).buffer.length
      then ({ hist := b.hist, buffer := b.buffer ++ [(x, y, w)] } : Buffered2D).FlushBuffer
      else { hist := b.hist, buffer := b.buffer ++ [(x, y, w)] }).FlushBuffer.hist =
    b.FlushBuffer.hist.FillDirect x y w
  split_ifs with hcap
  · rw [flush_flush2D]
    exact key b.buffer b.hist
  · exact key b.buffer b.hist

/-- One buffered 3D `Fill` followed by a flush reaches the same histogram
as flushing first and filling directly, under either storage layout. -/
theorem fill_flush_comm3D (useRows : Bool) (b : Buffered3D) (x y z : Val) (w : ℕ) :
    (Buffered3D.FlushBuffer useRows (Buffered3D.Fill useRows b x y z w)).hist =
      Histogram3D.FillDirect useRows
        (Buffered3D.FlushBuffer useRows b).hist x y z w := by
  have key : ∀ (buf : List (Val × Val × Val × ℕ)) (g : Histogram3D),
      (Buffered3D.FlushBuffer useRows ⟨g, buf ++ [(x, y, z, w)]⟩).hist =
        Histogram3D.FillDirect useRows
          (Buffered3D.FlushBuffer useRows ⟨g, buf⟩).hist x y z w := by
    intro buf g
    show List.foldl _ g (buf ++ [(x, y, z, w)]) = _
    rw [List.foldl_append]
    rfl
  show (Buffered3D.FlushBuffer useRows
      (if buffer_max ≤ ({ hist := b.hist, buffer := b.buffer ++ [(x, y, z, w)] } : Buffered3D).buffer.length
        then Buffered3D.FlushBuffer useRows { hist := b.hist, buffer := b.buffer ++ [(x, y, z, w)] }
        else { hist := b.hist, buffer := b.buffer ++ [(x, y, z, w)] })).hist =
    Histogram3D.FillDirect useRows (Buffered3D.FlushBuffer useRows b).hist x y z w
  split_ifs with hcap
  · rw [flush_flush3D]
    exact key b.buffer b.hist
  · exact key b.buffer b.hist

/-- Replaying samples through the buffered 2D `Fill` and flushing at the
end reaches the same histogram as replaying them unbuffered. -/
theorem buffered_fillAll_flush2D (samples : List (Val × Val × ℕ)) :
    ∀ (b : Buffered2D),
      (b.fillAll samples).FlushBuffer.hist = b.FlushBuffer.hist.fillAll samples := by
  induction samples with
  | nil =>
    intro b
    rfl
  | cons s rest ih =>
    intro b
    show ((b.Fill s.1 s.2.1 s.2.2).fillAll rest).FlushBuffer.hist = _
    rw [ih, fill_flush_comm2D]
    rfl

/-- Replaying samples through the buffered 3D `Fill` and flushing at the
end reaches the same histogram as replaying them unbuffered. -/
theorem buffered_fillAll_flush3D (useRows : Bool) (samples : List (Val × Val × Val × ℕ)) :
    ∀ (b : Buffered3D),
      (Buffered3D.FlushBuffer useRows (Buffered3D.fillAll useRows b samples)).hist =
        Histogram3D.fillAll useRows (Buffered3D.FlushBuffer useRows b).hist samples := by
  induction samples with
  | nil =>
    intro b
    rfl
  | cons s rest ih =>
    intro b
    show (Buffered3D.FlushBuffer useRows
      (Buffered3D.fillAll useRows (Buffered3D.Fill useRows b s.1 s.2.1 s.2.2.1 s.2.2.2) rest)).hist = _
    rw [ih, fill_flush_comm3D]
    rfl

/-- Entry counting for unbuffered 2D fills, with no well-formedness
assumption: every `Fill` adds exactly one entry. -/
theorem fillAll_entries2D (samples : List (Val × Val × ℕ)) :
    ∀ (h : Histogram2D), (h.fillAll samples).entries = h.entries + samples.length := by
  induction samples with
  | nil =>
    intro h
    rfl
  | cons s rest ih =>
    intro h
    show ((h.Fill s.1 s.2.1 s.2.2).fillAll rest).entries = _
    rw [ih]
    show h.entries + 1 + rest.length = h.entries + (s :: rest).length
    simp only [List.length_cons]
    omega

/-- Entry counting for unbuffered 3D fills under the row layout. -/
theorem fillAll_entries3D (samples : List (Val × Val × Val × ℕ)) :
    ∀ (h : Histogram3D),
      (Histogram3D.fillAll true h samples).entries = h.entries + samples.length := by
  induction samples with
  | nil =>
    intro h
    rfl
  | cons s rest ih =>
    intro h
    show ((Histogram3D.Fill true h s.1 s.2.1 s.2.2.1 s.2.2.2).fillAll true rest).entries = _
    rw [ih]
    show h.entries + 1 + rest.length = h.entries + (s :: rest).length
    simp only [List.length_cons]
    omega

/-- C8: starting with an empty buffer, buffered fills followed by the
terminal flush produce exactly the state of the same unbuffered fills, and
`entries` advances once per `Fill` call in total (shown for 2D, whose
layout always counts, and for 3D under the layout the headers
hardwire). -/
theorem C8_buffered_fill_equiv (h : Histogram2D) (samples : List (Val × Val × ℕ))
    (useRows : Bool) (h3 : Histogram3D) (samples3 : List (Val × Val × Val × ℕ)) :
    (Buffered2D.fillAll ⟨h, []⟩ samples).FlushBuffer.hist = h.fillAll samples ∧
    (h.fillAll samples).entries = h.entries + samples.length ∧
    (Buffered3D.FlushBuffer useRows
        (Buffered3D.fillAll useRows ⟨h3, []⟩ samples3)).hist =
      Histogram3D.fillAll useRows h3 samples3 ∧
    (Histogram3D.fillAll true h3 samples3).entries = h3.entries + samples3.length := by
  refine ⟨?_, fillAll_entries2D samples h, ?_,
    fillAll_entries3D samples3 h3⟩
  · rw [buffered_fillAll_flush2D]
    rfl
  · rw [buffered_fillAll_flush3D]
    rfl

/-! ### C9 -/

/-- C9: `SetBinContent` never changes the `entries` counter, in range or
out of range, on both ranks in the sources. -/
theorem C9_SetBinContent_entries_frame (h : Histogram2D) (xb yb : ℤ) (v : ℕ)
    (h3 : Histogram3D) (xb3 yb3 zb3 : ℤ) (v3 : ℕ) :
    (h.SetBinContent xb yb v).entries = h.entries ∧
    (h3.SetBinContent xb3 yb3 zb3 v3).entries = h3.entries := by
  refine ⟨?_, ?_⟩
  · unfold Histogram2D.SetBinContent
    split_ifs <;> rfl
  · unfold Histogram3D.SetBinContent
    split_ifs <;> rfl

/-! ### C10 -/

/-- The `size_t → int` narrowing loses every value above `2^31 - 1`. -/
theorem int32ofNat_ne_of_big (n : ℕ) (hn : 2 ^ 31 - 1 < n) :
    int32ofNat n ≠ (n : ℤ) := by
  unfold int32ofNat
  have hm : (n + 2 ^ 31) % 2 ^ 32 < 2 ^ 32 := Nat.mod_lt _ (by norm_num)
  have e1 : (2 : ℕ) ^ 31 = 2147483648 := by norm_num
  have e2 : (2 : ℕ) ^ 32 = 4294967296 := by norm_num
  have e3 : (2 : ℤ) ^ 31 = 2147483648 := by norm_num
  rw [e1, e2, e3] at *
  omega

/-- C10: `GetEntries` returns the `size_t` counter narrowed to a signed
32-bit `int`, so any histogram whose entry count exceeds `INT_MAX` is
misreported, on both ranks in the sources. -/
theorem C10_GetEntries_narrows (h : Histogram2D) (h3 : Histogram3D)
    (hh : 2 ^ 31 - 1 < h.entries) (hh3 : 2 ^ 31 - 1 < h3.entries) :
    h.GetEntries ≠ (h.entries : ℤ) ∧ h3.GetEntries ≠ (h3.entries : ℤ) :=
  ⟨int32ofNat_ne_of_big _ hh, int32ofNat_ne_of_big _ hh3⟩

/-- A 2D histogram whose entry counter just passed `INT_MAX`. -/
def bigH2 : Histogram2D := ⟨axS1, axS1, 2147483648, []⟩

/-- A 3D histogram whose entry counter just passed `INT_MAX`. -/
def bigH3 : Histogram3D := ⟨axS1, axS1, axS1, 2147483648, []⟩

/-- Witness for C10: with `entries = 2^31`, `GetEntries` reports a wrong
(negative) value on both ranks. -/
theorem C10_GetEntries_narrows_witness :
    bigH2.GetEntries ≠ (bigH2.entries : ℤ) ∧ bigH3.GetEntries ≠ (bigH3.entries : ℤ) :=
  C10_GetEntries_narrows bigH2 bigH3 (by decide) (by decide)

end Histo
